import Mathlib

/-!
Shallow embedding of the span-lifecycle core of an OpenTelemetry tracing SDK.

Source files embedded:
* `src/sdk/trace/span.rs` — the `Span` handle, the shared `SpanInner`
  finalization unit, its mutation API, and the `Drop` implementation that
  dispatches the finished snapshot to the provider's span processors.
* `src/exporter/trace/mod.rs` — `ExportResult`, the `SpanData` snapshot
  aggregate (with its serde field attributes), and the `HttpClient`
  implementations for the reqwest / surf transports.

Timestamps (`SystemTime`) are modelled as `Nat` ticks; reference-counted
shared state (`Arc<SpanInner>`) is modelled by an explicit handle count with
the drop handler firing when the count reaches zero, which is the guarantee
`Arc` provides.  Mutex acquisition is modelled as always succeeding (the only
way `lock` fails is poisoning by a panicking thread, which has no counterpart
in a pure model).
-/

namespace OTel

/-- Status code of a span (`StatusCode` in the API): defaults to unset. -/
inductive StatusCode where
  | Unset
  | Ok
  | Error
  deriving DecidableEq, Repr

/-- Kind of span (`SpanKind`). -/
inductive SpanKind where
  | Internal
  | Client
  | Server
  | Producer
  | Consumer
  deriving DecidableEq, Repr

/-- Modelled from the spec: `TraceState` (identity/propagation collaborator,
not under the embedded sources) is an ordered list of key/value entries. -/
structure TraceState where
  entries : List (String × String)
  deriving DecidableEq, Repr

/-- Modelled from the spec: the default (empty) trace state. -/
def TraceState.default : TraceState := ⟨[]⟩

/-- Modelled from the spec: trace identifiers are opaque equality-comparable
values with a well-defined invalid sentinel; modelled as `Nat` with sentinel 0. -/
def TraceId.invalid : Nat := 0

/-- Modelled from the spec: span identifiers, like trace identifiers. -/
def SpanId.invalid : Nat := 0

/-- Modelled from the spec: `SpanContext` carries trace/span addressing.
Field order mirrors the `SpanContext::new` constructor arguments. -/
structure SpanContext where
  trace_id : Nat
  span_id : Nat
  trace_flags : Nat
  remote : Bool
  trace_state : TraceState
  deriving DecidableEq, Repr

/-- Modelled from the spec: a key/value attribute (`KeyValue`); values are
opaque equality-comparable data, modelled as strings. -/
structure KeyValue where
  key : String
  value : String
  deriving DecidableEq, Repr

/-- An event recorded on a span (`Event::new(name, timestamp, attributes)`). -/
structure Event where
  name : String
  timestamp : Nat
  attributes : List KeyValue
  deriving DecidableEq, Repr

/-- Modelled from the spec: a link to another span context with attributes. -/
structure Link where
  span_context : SpanContext
  attributes : List KeyValue
  deriving DecidableEq, Repr

/-- Modelled from the spec: `EvictedHashMap`, a bounded attribute store with
capacity fixed at construction.  The eviction policy past capacity is an open
question in the spec; insertion here overwrites an existing key or appends,
evicting the oldest entry when over capacity. -/
structure EvictedHashMap where
  capacity : Nat
  entries : List KeyValue
  deriving DecidableEq, Repr

/-- Insert/overwrite a key/value pair into the bounded attribute store. -/
def EvictedHashMap.insert (m : EvictedHashMap) (kv : KeyValue) : EvictedHashMap :=
  if m.entries.any (fun e => e.key = kv.key) then
    { m with entries := m.entries.map (fun e => if e.key = kv.key then kv else e) }
  else if m.entries.length < m.capacity then
    { m with entries := m.entries ++ [kv] }
  else
    { m with entries := m.entries.drop 1 ++ [kv] }

/-- Look up a key in the bounded attribute store. -/
def EvictedHashMap.get (m : EvictedHashMap) (k : String) : Option String :=
  (m.entries.find? (fun e => e.key = k)).map (fun e => e.value)

/-- Modelled from the spec: `EvictedQueue`, a bounded ordered container with
capacity fixed at construction, evicting the oldest item when over capacity. -/
structure EvictedQueue (α : Type) where
  capacity : Nat
  elements : List α
  deriving DecidableEq, Repr

/-- Append an item to the back of the bounded queue. -/
def EvictedQueue.push_back {α : Type} (q : EvictedQueue α) (a : α) : EvictedQueue α :=
  if q.elements.length < q.capacity then
    { q with elements := q.elements ++ [a] }
  else
    { q with elements := q.elements.drop 1 ++ [a] }

/-- Modelled from the spec: the shared, read-only resource descriptor attached
to every snapshot from one process, modelled as its attribute list. -/
structure Resource where
  attrs : List KeyValue
  deriving DecidableEq, Repr

/-- Instrumentation library that produced a span (name plus optional version). -/
structure InstrumentationLibrary where
  name : String
  version : Option String
  deriving DecidableEq, Repr

/-- The default instrumentation library value (empty name, no version),
produced when deserialization skips the field. -/
def InstrumentationLibrary.default : InstrumentationLibrary := ⟨"", none⟩

/-- `SpanData` from `src/exporter/trace/mod.rs`: everything collected by a
span, the standard exporter input.  Field order mirrors the Rust struct.
`instrumentation_lib` carries `serde(skip)` in the source. -/
structure SpanData where
  span_context : SpanContext
  parent_span_id : Nat
  span_kind : SpanKind
  name : String
  start_time : Nat
  end_time : Nat
  attributes : EvictedHashMap
  message_events : EvictedQueue Event
  links : EvictedQueue Link
  status_code : StatusCode
  status_message : String
  resource : Resource
  instrumentation_lib : InstrumentationLibrary
  deriving DecidableEq, Repr

/-- `Span` from `src/sdk/trace/span.rs`: the handle's own id plus the shared
inner slot.  `data = none` models `SpanInner { data: None, .. }` (a
non-recording span); `data = some slot` models `Some(Mutex<Option<SpanData>>)`
with `slot` the mutex contents. -/
structure Span where
  id : Nat
  data : Option (Option SpanData)
  deriving DecidableEq, Repr

namespace Span

/-- `with_data`: run a read-only function over the snapshot if present. -/
def with_data {T : Type} (s : Span) (f : SpanData → T) : Option T :=
  s.data.bind (fun slot => slot.map f)

/-- `with_data_mut`: apply a mutation to the snapshot if present; the
resulting handle state. -/
def with_data_mut (s : Span) (f : SpanData → SpanData) : Span :=
  { s with data := s.data.map (fun slot => slot.map f) }

/-- `add_event_with_timestamp`: push an event onto the snapshot's event queue. -/
def add_event_with_timestamp (s : Span) (name : String) (timestamp : Nat)
    (attributes : List KeyValue) : Span :=
  s.with_data_mut (fun d =>
    { d with message_events := d.message_events.push_back ⟨name, timestamp, attributes⟩ })

/-- `span_context`: the snapshot's context, or the invalid sentinel context
when the span is non-recording. -/
def span_context (s : Span) : SpanContext :=
  (s.with_data (fun d => d.span_context)).getD
    ⟨TraceId.invalid, SpanId.invalid, 0, false, TraceState.default⟩

/-- `is_recording`: true iff the inner data slot is present. -/
def is_recording (s : Span) : Bool :=
  s.data.isSome

/-- `set_attribute`: insert a key/value into the snapshot's attribute store. -/
def set_attribute (s : Span) (kv : KeyValue) : Span :=
  s.with_data_mut (fun d => { d with attributes := d.attributes.insert kv })

/-- `set_status`: overwrite the snapshot's status code and message. -/
def set_status (s : Span) (code : StatusCode) (message : String) : Span :=
  s.with_data_mut (fun d => { d with status_code := code, status_message := message })

/-- `update_name`: overwrite the snapshot's name. -/
def update_name (s : Span) (new_name : String) : Span :=
  s.with_data_mut (fun d => { d with name := new_name })

/-- `end_with_timestamp`: record the given end timestamp into the snapshot. -/
def end_with_timestamp (s : Span) (timestamp : Nat) : Span :=
  s.with_data_mut (fun d => { d with end_time := timestamp })

end Span

/-- One `on_end` call observed by a span processor: which processor received
it, the snapshot it received, and whether it got the original by move
(`span_data.take()`, the last loop iteration) or an owned clone
(`span_data.clone()`, every earlier iteration). -/
structure Delivery where
  processor : Nat
  data : SpanData
  moved : Bool
  deriving DecidableEq, Repr

/-- The end-time normalization step inside `Drop for SpanInner`:
`if data.end_time <= data.start_time { data.end_time = SystemTime::now() }`. -/
def normalizeEnd (now : Nat) (d : SpanData) : SpanData :=
  if d.end_time ≤ d.start_time then { d with end_time := now } else d

/-- The peekable processor loop inside `Drop for SpanInner`: every iteration
except the last clones the slot (slot unchanged), the last takes it; a
processor is invoked only when the slot held a snapshot.  Processors are
identified by `Nat` labels; the result is the ordered list of `on_end` calls. -/
def dispatch : List Nat → Option SpanData → List Delivery
  | [], _ => []
  | [p], some d => [⟨p, d, true⟩]
  | [_], none => []
  | p :: q :: rest, some d => ⟨p, d, false⟩ :: dispatch (q :: rest) (some d)
  | _ :: q :: rest, none => dispatch (q :: rest) none

/-- `Drop for SpanInner::drop`: take the slot; if the span was recording and
the tracer's provider still exists, normalize the end time and dispatch to the
provider's processor chain.  `data` is the inner `Option<Mutex<Option<_>>>`
state, `provider` is `self.tracer.provider()` (its processor chain when
alive), `now` is `SystemTime::now()` at drop time.  Returns the `on_end`
calls made. -/
def dropSpanInner (data : Option (Option SpanData)) (provider : Option (List Nat))
    (now : Nat) : List Delivery :=
  match data with
  | none => []
  | some slot =>
    match provider with
    | none => []
    | some processors => dispatch processors (slot.map (normalizeEnd now))

/-- The whole shared-span system: the one `SpanInner` (inside `span`), the
number of live `Arc` handles referencing it, the provider resolvable from the
tracer, the `on_end` calls made so far, and how many times the drop handler
has run. -/
structure SpanSystem where
  span : Span
  handles : Nat
  provider : Option (List Nat)
  deliveries : List Delivery
  finalizeCount : Nat
  deriving DecidableEq, Repr

/-- Release one handle.  `Arc` semantics: dropping a clone decrements the
count; when the last reference is released the `SpanInner` drop handler runs
(exactly once) and the slot is gone for good. -/
def release (now : Nat) (s : SpanSystem) : SpanSystem :=
  if s.handles ≤ 1 then
    { span := { s.span with data := none }
      handles := 0
      provider := s.provider
      deliveries := s.deliveries ++ dropSpanInner s.span.data s.provider now
      finalizeCount := s.finalizeCount + 1 }
  else
    { s with handles := s.handles - 1 }

/-- Release `n` handles one after another. -/
def releaseN (now : Nat) : Nat → SpanSystem → SpanSystem
  | 0, s => s
  | n + 1, s => releaseN now n (release now s)

/-- Release every live handle of the system. -/
def releaseAll (now : Nat) (s : SpanSystem) : SpanSystem :=
  releaseN now s.handles s

/-- A fresh system: a span created by `Span::new` with `n` handles alive. -/
def mkSystem (id : Nat) (data : Option SpanData) (provider : Option (List Nat))
    (n : Nat) : SpanSystem :=
  { span := ⟨id, data.map some⟩
    handles := n
    provider := provider
    deliveries := []
    finalizeCount := 0 }

/-- Apply a handle method to the system.  Handle methods (`with_data_mut`
users) touch only the shared slot under the per-span lock: they reach no
processor and never run the drop handler. -/
def mutate (f : Span → Span) (s : SpanSystem) : SpanSystem :=
  { s with span := f s.span }

/-- Result of an export (`ExportResult` in `src/exporter/trace/mod.rs`). -/
inductive ExportResult where
  | Success
  | FailedNotRetryable
  | FailedRetryable
  deriving DecidableEq, Repr

/-- `status().is_success()` of the http crate: a 2xx status code. -/
def is_success (status : Nat) : Bool :=
  decide (200 ≤ status ∧ status < 300)

/-- `impl HttpClient for reqwest::Client`: classification of a received
response by status. -/
def reqwestClientClassify (status : Nat) : ExportResult :=
  if is_success status then ExportResult.Success else ExportResult.FailedNotRetryable

/-- `impl HttpClient for reqwest::blocking::Client`: classification of a
received response by status. -/
def reqwestBlockingClassify (status : Nat) : ExportResult :=
  if is_success status then ExportResult.Success else ExportResult.FailedNotRetryable

/-- `impl HttpClient for surf::Client`: classification of a received response
by status. -/
def surfClientClassify (status : Nat) : ExportResult :=
  if is_success status then ExportResult.Success else ExportResult.FailedNotRetryable

/-- A concrete recording snapshot used to evaluate the theorems on a
specific input. -/
def sampleSpanData : SpanData :=
  { span_context := ⟨7, 99, 0, false, TraceState.default⟩
    parent_span_id := 1
    span_kind := SpanKind.Client
    name := "op"
    start_time := 10
    end_time := 0
    attributes := ⟨32, []⟩
    message_events := ⟨128, []⟩
    links := ⟨32, []⟩
    status_code := StatusCode.Unset
    status_message := ""
    resource := ⟨[]⟩
    instrumentation_lib := ⟨"opentelemetry", some "0.8.0"⟩ }

/-! Serialization model.  `SpanData` derives serde `Serialize` and
`Deserialize`, with `serde(skip)` on `instrumentation_lib`.  Modelled from
the spec and the derive (the serde/bincode machinery is an external
collaborator, not under the embedded sources): fields are encoded in
declaration order into a token stream, the skipped field is absent from the
stream and filled with its default on decode.  Every decoder consumes
exactly the tokens its encoder produced and returns the rest of the
stream. -/

/-- Encode a natural number. -/
def encNat (n : Nat) : List Nat := [n]

/-- Decode a natural number. -/
def decNat : List Nat → Option (Nat × List Nat)
  | [] => none
  | n :: rest => some (n, rest)

/-- Encode a boolean. -/
def encBool (b : Bool) : List Nat := [cond b 1 0]

/-- Decode a boolean. -/
def decBool : List Nat → Option (Bool × List Nat)
  | 0 :: rest => some (false, rest)
  | 1 :: rest => some (true, rest)
  | _ => none

/-- Encode a string: length, then the character codes. -/
def encString (s : String) : List Nat :=
  s.data.length :: s.data.map Char.toNat

/-- Decode a fixed number of characters. -/
def decChars : Nat → List Nat → Option (List Char × List Nat)
  | 0, rest => some ([], rest)
  | _ + 1, [] => none
  | n + 1, c :: rest => (decChars n rest).map (fun pr => (Char.ofNat c :: pr.1, pr.2))

/-- Decode a string. -/
def decString : List Nat → Option (String × List Nat)
  | [] => none
  | n :: rest => (decChars n rest).map (fun pr => (String.mk pr.1, pr.2))

/-- Encode a list: length, then each element in order. -/
def encListWith {α : Type} (enc : α → List Nat) (xs : List α) : List Nat :=
  xs.length :: (xs.map enc).flatten

/-- Decode a fixed number of elements. -/
def decCount {α : Type} (dec : List Nat → Option (α × List Nat)) :
    Nat → List Nat → Option (List α × List Nat)
  | 0, rest => some ([], rest)
  | n + 1, rest =>
    (dec rest).bind (fun pr =>
      (decCount dec n pr.2).map (fun qr => (pr.1 :: qr.1, qr.2)))

/-- Decode a list. -/
def decListWith {α : Type} (dec : List Nat → Option (α × List Nat)) :
    List Nat → Option (List α × List Nat)
  | [] => none
  | n :: rest => decCount dec n rest

/-- Encode a pair. -/
def encPairWith {α β : Type} (ea : α → List Nat) (eb : β → List Nat)
    (p : α × β) : List Nat :=
  ea p.1 ++ eb p.2

/-- Decode a pair. -/
def decPairWith {α β : Type} (da : List Nat → Option (α × List Nat))
    (db : List Nat → Option (β × List Nat)) (l : List Nat) :
    Option ((α × β) × List Nat) :=
  (da l).bind (fun pr => (db pr.2).map (fun qr => ((pr.1, qr.1), qr.2)))

/-- Encode a status code as its variant tag. -/
def encStatusCode : StatusCode → List Nat
  | StatusCode.Unset => [0]
  | StatusCode.Ok => [1]
  | StatusCode.Error => [2]

/-- Decode a status code. -/
def decStatusCode : List Nat → Option (StatusCode × List Nat)
  | 0 :: rest => some (StatusCode.Unset, rest)
  | 1 :: rest => some (StatusCode.Ok, rest)
  | 2 :: rest => some (StatusCode.Error, rest)
  | _ => none

/-- Encode a span kind as its variant tag. -/
def encSpanKind : SpanKind → List Nat
  | SpanKind.Internal => [0]
  | SpanKind.Client => [1]
  | SpanKind.Server => [2]
  | SpanKind.Producer => [3]
  | SpanKind.Consumer => [4]

/-- Decode a span kind. -/
def decSpanKind : List Nat → Option (SpanKind × List Nat)
  | 0 :: rest => some (SpanKind.Internal, rest)
  | 1 :: rest => some (SpanKind.Client, rest)
  | 2 :: rest => some (SpanKind.Server, rest)
  | 3 :: rest => some (SpanKind.Producer, rest)
  | 4 :: rest => some (SpanKind.Consumer, rest)
  | _ => none

/-- Encode a trace state. -/
def encTraceState (ts : TraceState) : List Nat :=
  encListWith (encPairWith encString encString) ts.entries

/-- Decode a trace state. -/
def decTraceState (l : List Nat) : Option (TraceState × List Nat) :=
  (decListWith (decPairWith decString decString) l).map
    (fun pr => (⟨pr.1⟩, pr.2))

/-- Encode a span context, fields in declaration order. -/
def encSpanContext (c : SpanContext) : List Nat :=
  encNat c.trace_id ++ encNat c.span_id ++ encNat c.trace_flags ++
    encBool c.remote ++ encTraceState c.trace_state

/-- Decode a span context. -/
def decSpanContext (l : List Nat) : Option (SpanContext × List Nat) :=
  (decNat l).bind (fun p1 =>
  (decNat p1.2).bind (fun p2 =>
  (decNat p2.2).bind (fun p3 =>
  (decBool p3.2).bind (fun p4 =>
  (decTraceState p4.2).map (fun p5 =>
    (⟨p1.1, p2.1, p3.1, p4.1, p5.1⟩, p5.2))))))

/-- Encode a key/value attribute. -/
def encKeyValue (kv : KeyValue) : List Nat :=
  encString kv.key ++ encString kv.value

/-- Decode a key/value attribute. -/
def decKeyValue (l : List Nat) : Option (KeyValue × List Nat) :=
  (decString l).bind (fun p1 =>
  (decString p1.2).map (fun p2 => (⟨p1.1, p2.1⟩, p2.2)))

/-- Encode an event. -/
def encEvent (e : Event) : List Nat :=
  encString e.name ++ encNat e.timestamp ++ encListWith encKeyValue e.attributes

/-- Decode an event. -/
def decEvent (l : List Nat) : Option (Event × List Nat) :=
  (decString l).bind (fun p1 =>
  (decNat p1.2).bind (fun p2 =>
  (decListWith decKeyValue p2.2).map (fun p3 =>
    (⟨p1.1, p2.1, p3.1⟩, p3.2))))

/-- Encode a link. -/
def encLink (lk : Link) : List Nat :=
  encSpanContext lk.span_context ++ encListWith encKeyValue lk.attributes

/-- Decode a link. -/
def decLink (l : List Nat) : Option (Link × List Nat) :=
  (decSpanContext l).bind (fun p1 =>
  (decListWith decKeyValue p1.2).map (fun p2 => (⟨p1.1, p2.1⟩, p2.2)))

/-- Encode a bounded attribute store: capacity, then entries. -/
def encEvictedHashMap (m : EvictedHashMap) : List Nat :=
  encNat m.capacity ++ encListWith encKeyValue m.entries

/-- Decode a bounded attribute store. -/
def decEvictedHashMap (l : List Nat) : Option (EvictedHashMap × List Nat) :=
  (decNat l).bind (fun p1 =>
  (decListWith decKeyValue p1.2).map (fun p2 => (⟨p1.1, p2.1⟩, p2.2)))

/-- Encode a bounded queue: capacity, then elements. -/
def encEvictedQueue {α : Type} (enc : α → List Nat) (q : EvictedQueue α) : List Nat :=
  encNat q.capacity ++ encListWith enc q.elements

/-- Decode a bounded queue. -/
def decEvictedQueue {α : Type} (dec : List Nat → Option (α × List Nat))
    (l : List Nat) : Option (EvictedQueue α × List Nat) :=
  (decNat l).bind (fun p1 =>
  (decListWith dec p1.2).map (fun p2 => (⟨p1.1, p2.1⟩, p2.2)))

/-- Encode a resource descriptor. -/
def encResource (r : Resource) : List Nat :=
  encListWith encKeyValue r.attrs

/-- Decode a resource descriptor. -/
def decResource (l : List Nat) : Option (Resource × List Nat) :=
  (decListWith decKeyValue l).map (fun pr => (⟨pr.1⟩, pr.2))

/-- Serialize a snapshot: every field in declaration order except
`instrumentation_lib`, which carries `serde(skip)` and is not encoded. -/
def serializeSpanData (sd : SpanData) : List Nat :=
  encSpanContext sd.span_context ++ encNat sd.parent_span_id ++
    encSpanKind sd.span_kind ++ encString sd.name ++ encNat sd.start_time ++
    encNat sd.end_time ++ encEvictedHashMap sd.attributes ++
    encEvictedQueue encEvent sd.message_events ++
    encEvictedQueue encLink sd.links ++ encStatusCode sd.status_code ++
    encString sd.status_message ++ encResource sd.resource

/-- Decode a snapshot from a stream; the skipped `instrumentation_lib` field
is filled with its default value. -/
def decSpanData (l : List Nat) : Option (SpanData × List Nat) :=
  (decSpanContext l).bind (fun p1 =>
  (decNat p1.2).bind (fun p2 =>
  (decSpanKind p2.2).bind (fun p3 =>
  (decString p3.2).bind (fun p4 =>
  (decNat p4.2).bind (fun p5 =>
  (decNat p5.2).bind (fun p6 =>
  (decEvictedHashMap p6.2).bind (fun p7 =>
  (decEvictedQueue decEvent p7.2).bind (fun p8 =>
  (decEvictedQueue decLink p8.2).bind (fun p9 =>
  (decStatusCode p9.2).bind (fun p10 =>
  (decString p10.2).bind (fun p11 =>
  (decResource p11.2).map (fun p12 =>
    (⟨p1.1, p2.1, p3.1, p4.1, p5.1, p6.1, p7.1, p8.1, p9.1, p10.1, p11.1,
      p12.1, InstrumentationLibrary.default⟩, p12.2)))))))))))))

/-- Deserialize a snapshot from a full stream. -/
def deserializeSpanData (l : List Nat) : Option SpanData :=
  (decSpanData l).map (fun pr => pr.1)

/-! Basic facts about the dispatch loop. -/

/-- With an empty slot no processor is ever invoked. -/
theorem dispatch_none (ps : List Nat) : dispatch ps none = [] := by
  induction ps with
  | nil => rfl
  | cons p rest ih =>
    cases rest with
    | nil => rfl
    | cons q rest' => simpa [dispatch] using ih

/-- With a full slot every processor is invoked exactly once, in order. -/
theorem dispatch_some_processors (ps : List Nat) (d : SpanData) :
    (dispatch ps (some d)).map Delivery.processor = ps := by
  induction ps with
  | nil => rfl
  | cons p rest ih =>
    cases rest with
    | nil => rfl
    | cons q rest' => simpa [dispatch] using ih

/-- With a full slot, one delivery per processor. -/
theorem dispatch_some_length (ps : List Nat) (d : SpanData) :
    (dispatch ps (some d)).length = ps.length := by
  have h := dispatch_some_processors ps d
  calc (dispatch ps (some d)).length
      = ((dispatch ps (some d)).map Delivery.processor).length := (List.length_map _ _).symm
    _ = ps.length := by rw [h]

/-- Every delivered snapshot is the one taken from the slot. -/
theorem dispatch_some_data (ps : List Nat) (d : SpanData) :
    ∀ dv ∈ dispatch ps (some d), dv.data = d := by
  induction ps with
  | nil => intro dv hdv; simp [dispatch] at hdv
  | cons p rest ih =>
    cases rest with
    | nil =>
      intro dv hdv
      simp [dispatch] at hdv
      rw [hdv]
    | cons q rest' =>
      intro dv hdv
      simp only [dispatch, List.mem_cons] at hdv
      cases hdv with
      | inl h => rw [h]
      | inr h => exact ih dv h

/-- All processors but the last receive clones; the last receives the
original by move. -/
theorem dispatch_some_moved (ps : List Nat) (d : SpanData) (h : ps ≠ []) :
    (dispatch ps (some d)).map Delivery.moved =
      List.replicate (ps.length - 1) false ++ [true] := by
  induction ps with
  | nil => exact absurd rfl h
  | cons p rest ih =>
    cases rest with
    | nil => rfl
    | cons q rest' =>
      have ih' := ih (by simp)
      simp only [dispatch, List.map_cons, ih']
      simp [List.replicate_succ]

/-! The release protocol: releasing every handle runs the drop handler
exactly once, on the release that takes the count to zero. -/

/-- Releasing all of `n + 1` handles ends with the slot taken, the drop
handler having run exactly once more, and its `on_end` calls appended. -/
theorem releaseN_spec (now : Nat) :
    ∀ n s, s.handles = n + 1 →
      releaseN now (n + 1) s =
        { span := { s.span with data := none }
          handles := 0
          provider := s.provider
          deliveries := s.deliveries ++ dropSpanInner s.span.data s.provider now
          finalizeCount := s.finalizeCount + 1 } := by
  intro n
  induction n with
  | zero =>
    intro s hs
    simp [releaseN, release, hs]
  | succ m ih =>
    intro s hs
    have hgt : ¬ s.handles ≤ 1 := by omega
    have hstep : release now s = { s with handles := s.handles - 1 } := by
      simp [release, hgt]
    show releaseN now (m + 1) (release now s) = _
    rw [hstep]
    exact ih { s with handles := s.handles - 1 } (by simp [hs])

/-- `releaseAll` on a system with at least one live handle. -/
theorem releaseAll_spec (now : Nat) (s : SpanSystem) (n : Nat)
    (hs : s.handles = n + 1) :
    releaseAll now s =
      { span := { s.span with data := none }
        handles := 0
        provider := s.provider
        deliveries := s.deliveries ++ dropSpanInner s.span.data s.provider now
        finalizeCount := s.finalizeCount + 1 } := by
  unfold releaseAll
  rw [hs]
  exact releaseN_spec now n s hs

/-! Claim theorems. -/

/-- C1: releasing all `n + 1` handles of one finalization unit runs the drop
handler exactly once in total; with a snapshot present and the provider
alive, the processor chain is invoked exactly once (never zero, never more),
each registered processor receiving exactly one `on_end` call. -/
theorem finalize_exactly_once (id : Nat) (sd : SpanData) (ps : List Nat)
    (n now : Nat) :
    (releaseAll now (mkSystem id (some sd) (some ps) (n + 1))).finalizeCount = 1 ∧
    (releaseAll now (mkSystem id (some sd) (some ps) (n + 1))).deliveries =
      dispatch ps (some (normalizeEnd now sd)) ∧
    ((releaseAll now (mkSystem id (some sd) (some ps) (n + 1))).deliveries).map
      Delivery.processor = ps := by
  rw [releaseAll_spec now _ n rfl]
  refine ⟨rfl, ?_, ?_⟩
  · simp [mkSystem, dropSpanInner]
  · simp [mkSystem, dropSpanInner, dispatch_some_processors]

/-- C2: at finalization, a snapshot whose end time is at most its start time
gets its end time overwritten with the current time, its start time left
unchanged; consequently (finalization running no earlier than the start
time) every exported snapshot has end time at least its start time. -/
theorem end_time_monotone (sd : SpanData) (now : Nat)
    (hnow : sd.start_time ≤ now) :
    (sd.end_time ≤ sd.start_time →
      (normalizeEnd now sd).end_time = now ∧
      (normalizeEnd now sd).start_time = sd.start_time) ∧
    (∀ id ps n dv,
      dv ∈ (releaseAll now (mkSystem id (some sd) (some ps) (n + 1))).deliveries →
        dv.data.start_time = sd.start_time ∧
        dv.data.start_time ≤ dv.data.end_time) := by
  constructor
  · intro hle
    constructor
    · simp [normalizeEnd, hle]
    · simp [normalizeEnd, hle]
  · intro id ps n dv hdv
    rw [releaseAll_spec now _ n rfl] at hdv
    simp only [mkSystem, dropSpanInner, Option.map_some, List.nil_append] at hdv
    have hdata := dispatch_some_data ps (normalizeEnd now sd) dv hdv
    rw [hdata]
    by_cases hle : sd.end_time ≤ sd.start_time
    · simp [normalizeEnd, hle]
      exact hnow
    · simp [normalizeEnd, hle]
      omega

/-- C2 witness. -/
theorem end_time_monotone_witness :
    sampleSpanData.start_time ≤ 42 ∧
    ((sampleSpanData.end_time ≤ sampleSpanData.start_time →
      (normalizeEnd 42 sampleSpanData).end_time = 42 ∧
      (normalizeEnd 42 sampleSpanData).start_time = sampleSpanData.start_time) ∧
    (∀ id ps n dv,
      dv ∈ (releaseAll 42 (mkSystem id (some sampleSpanData) (some ps) (n + 1))).deliveries →
        dv.data.start_time = sampleSpanData.start_time ∧
        dv.data.start_time ≤ dv.data.end_time)) :=
  ⟨by decide, end_time_monotone sampleSpanData 42 (by decide)⟩

/-- C3: ending a recording span with a timestamp strictly after the start
time makes no `on_end` call by itself, and after releasing every handle each
exported snapshot carries exactly that end timestamp (the fallback does not
overwrite it). -/
theorem explicit_end_then_release (id n now T : Nat) (sd : SpanData)
    (ps : List Nat) (hT : sd.start_time < T) :
    (mutate (fun sp => sp.end_with_timestamp T)
        (mkSystem id (some sd) (some ps) (n + 1))).deliveries = [] ∧
    (mutate (fun sp => sp.end_with_timestamp T)
        (mkSystem id (some sd) (some ps) (n + 1))).finalizeCount = 0 ∧
    ∀ dv ∈ (releaseAll now (mutate (fun sp => sp.end_with_timestamp T)
        (mkSystem id (some sd) (some ps) (n + 1)))).deliveries,
      dv.data.end_time = T := by
  refine ⟨rfl, rfl, ?_⟩
  intro dv hdv
  have hnorm : normalizeEnd now { sd with end_time := T } = { sd with end_time := T } := by
    simp only [normalizeEnd]
    rw [if_neg]
    simp only [not_le]
    exact hT
  have hdel : (releaseAll now (mutate (fun sp => sp.end_with_timestamp T)
      (mkSystem id (some sd) (some ps) (n + 1)))).deliveries
      = dispatch ps (some (normalizeEnd now { sd with end_time := T })) := by
    rw [releaseAll_spec now _ n rfl]
    exact rfl
  rw [hdel, hnorm] at hdv
  have hdata := dispatch_some_data ps { sd with end_time := T } dv hdv
  rw [hdata]

/-- C3 witness. -/
theorem explicit_end_then_release_witness :
    sampleSpanData.start_time < 15 ∧
    ((mutate (fun sp => sp.end_with_timestamp 15)
        (mkSystem 0 (some sampleSpanData) (some [1]) (2 + 1))).deliveries = [] ∧
    (mutate (fun sp => sp.end_with_timestamp 15)
        (mkSystem 0 (some sampleSpanData) (some [1]) (2 + 1))).finalizeCount = 0 ∧
    ∀ dv ∈ (releaseAll 42 (mutate (fun sp => sp.end_with_timestamp 15)
        (mkSystem 0 (some sampleSpanData) (some [1]) (2 + 1)))).deliveries,
      dv.data.end_time = 15) :=
  ⟨by decide, explicit_end_then_release 0 2 42 15 sampleSpanData [1] (by decide)⟩

/-- C4: with at least two processors registered, every processor receives one
`on_end` call carrying a snapshot equal to the finalized snapshot; all but
the last receive clones and the last receives the original by move; with a
single processor no clone is made. -/
theorem fanout_equivalence (sd : SpanData) (now p q : Nat) (rest : List Nat) :
    ((dropSpanInner (some (some sd)) (some (p :: q :: rest)) now).map
        Delivery.processor = p :: q :: rest) ∧
    (∀ dv ∈ dropSpanInner (some (some sd)) (some (p :: q :: rest)) now,
        dv.data = normalizeEnd now sd) ∧
    ((dropSpanInner (some (some sd)) (some (p :: q :: rest)) now).map
        Delivery.moved = List.replicate (rest.length + 1) false ++ [true]) ∧
    dropSpanInner (some (some sd)) (some [p]) now
      = [⟨p, normalizeEnd now sd, true⟩] := by
  refine ⟨?_, ?_, ?_, rfl⟩
  · simp [dropSpanInner, dispatch_some_processors]
  · intro dv hdv
    simp only [dropSpanInner, Option.map_some] at hdv
    exact dispatch_some_data _ _ dv hdv
  · have h := dispatch_some_moved (p :: q :: rest) (normalizeEnd now sd) (by simp)
    simpa [dropSpanInner] using h

/-- C5: with zero processors registered, finalization completes (the drop
handler runs once, the slot is consumed) and no consumer is invoked. -/
theorem empty_chain_tolerance (id n now : Nat) (sd : SpanData) :
    releaseAll now (mkSystem id (some sd) (some []) (n + 1)) =
      { span := ⟨id, none⟩
        handles := 0
        provider := some []
        deliveries := []
        finalizeCount := 1 } := by
  rw [releaseAll_spec now _ n rfl]
  rfl

/-- C6: every mutation on a span created without a snapshot leaves the handle
state untouched, `span_context` returns the invalid identity, `is_recording`
is false, and releasing all handles makes zero `on_end` calls. -/
theorem non_recording_no_op (id n now T ts : Nat) (name msg : String)
    (attrs : List KeyValue) (kv : KeyValue) (code : StatusCode) (ps : List Nat) :
    Span.add_event_with_timestamp ⟨id, none⟩ name ts attrs = ⟨id, none⟩ ∧
    Span.set_attribute ⟨id, none⟩ kv = ⟨id, none⟩ ∧
    Span.set_status ⟨id, none⟩ code msg = ⟨id, none⟩ ∧
    Span.update_name ⟨id, none⟩ name = ⟨id, none⟩ ∧
    Span.end_with_timestamp ⟨id, none⟩ T = ⟨id, none⟩ ∧
    Span.span_context ⟨id, none⟩ =
      ⟨TraceId.invalid, SpanId.invalid, 0, false, TraceState.default⟩ ∧
    Span.is_recording ⟨id, none⟩ = false ∧
    (releaseAll now (mkSystem id none (some ps) (n + 1))).deliveries = [] := by
  refine ⟨rfl, rfl, rfl, rfl, rfl, rfl, rfl, ?_⟩
  rw [releaseAll_spec now _ n rfl]
  rfl

/-- C7: when the provider no longer exists at finalization time, the
snapshot is silently discarded: the drop handler completes, no processor is
invoked, and the slot is consumed. -/
theorem provider_gone_silent_drop (id n now : Nat) (sd : SpanData) :
    releaseAll now (mkSystem id (some sd) none (n + 1)) =
      { span := ⟨id, none⟩
        handles := 0
        provider := none
        deliveries := []
        finalizeCount := 1 } := by
  rw [releaseAll_spec now _ n rfl]
  rfl

/-- C8: each HTTP client implementation maps a success response status to
`Success` and any non-success status to `FailedNotRetryable`; no response
status is ever classified `FailedRetryable`. -/
theorem http_client_classification (status : Nat) :
    (reqwestClientClassify status ≠ ExportResult.FailedRetryable ∧
      (reqwestClientClassify status = ExportResult.Success ↔
        is_success status = true)) ∧
    (reqwestBlockingClassify status ≠ ExportResult.FailedRetryable ∧
      (reqwestBlockingClassify status = ExportResult.Success ↔
        is_success status = true)) ∧
    (surfClientClassify status ≠ ExportResult.FailedRetryable ∧
      (surfClientClassify status = ExportResult.Success ↔
        is_success status = true)) := by
  by_cases h : is_success status = true <;>
    simp [reqwestClientClassify, reqwestBlockingClassify, surfClientClassify, h]

/-- C10: ending a recording span does not freeze it: it stays recording,
every mutation still applies to the snapshot afterwards, and a second end
overwrites the end time (last write wins). -/
theorem end_does_not_freeze (id T T2 ts : Nat) (sd : SpanData) (kv : KeyValue)
    (name ename msg : String) (attrs : List KeyValue) (code : StatusCode) :
    (Span.end_with_timestamp ⟨id, some (some sd)⟩ T).is_recording = true ∧
    Span.set_attribute (Span.end_with_timestamp ⟨id, some (some sd)⟩ T) kv
      = ⟨id, some (some { sd with end_time := T, attributes := sd.attributes.insert kv })⟩ ∧
    Span.update_name (Span.end_with_timestamp ⟨id, some (some sd)⟩ T) name
      = ⟨id, some (some { sd with end_time := T, name := name })⟩ ∧
    Span.set_status (Span.end_with_timestamp ⟨id, some (some sd)⟩ T) code msg
      = ⟨id, some (some { sd with end_time := T, status_code := code, status_message := msg })⟩ ∧
    Span.add_event_with_timestamp
        (Span.end_with_timestamp ⟨id, some (some sd)⟩ T) ename ts attrs
      = ⟨id, some (some { sd with end_time := T, message_events := sd.message_events.push_back ⟨ename, ts, attrs⟩ })⟩ ∧
    Span.end_with_timestamp (Span.end_with_timestamp ⟨id, some (some sd)⟩ T) T2
      = ⟨id, some (some { sd with end_time := T2 })⟩ :=
  ⟨rfl, rfl, rfl, rfl, rfl, rfl⟩

/-! Round-trip facts for the serialization model. -/

/-- Natural numbers round-trip. -/
theorem decNat_enc (n : Nat) (tail : List Nat) :
    decNat (encNat n ++ tail) = some (n, tail) := rfl

/-- Booleans round-trip. -/
theorem decBool_enc (b : Bool) (tail : List Nat) :
    decBool (encBool b ++ tail) = some (b, tail) := by
  cases b <;> rfl

/-- Character blocks round-trip. -/
theorem decChars_enc (cs : List Char) (tail : List Nat) :
    decChars cs.length (cs.map Char.toNat ++ tail) = some (cs, tail) := by
  induction cs with
  | nil => rfl
  | cons c cs ih => simp [decChars, ih, Char.ofNat_toNat]

/-- Strings round-trip. -/
theorem decString_enc (s : String) (tail : List Nat) :
    decString (encString s ++ tail) = some (s, tail) := by
  show (decChars s.data.length (s.data.map Char.toNat ++ tail)).map
      (fun pr => (String.mk pr.1, pr.2)) = some (s, tail)
  rw [decChars_enc]
  rfl

/-- Counted blocks of elements round-trip. -/
theorem decCount_enc {α : Type} {enc : α → List Nat}
    {dec : List Nat → Option (α × List Nat)}
    (h : ∀ a tail, dec (enc a ++ tail) = some (a, tail)) :
    ∀ (xs : List α) (tail : List Nat),
      decCount dec xs.length ((xs.map enc).flatten ++ tail) = some (xs, tail) := by
  intro xs
  induction xs with
  | nil => intro tail; rfl
  | cons x xs ih =>
    intro tail
    simp only [List.map_cons, List.flatten_cons, List.length_cons,
      List.append_assoc]
    simp [decCount, h, ih]

/-- Lists round-trip. -/
theorem decListWith_enc {α : Type} {enc : α → List Nat}
    {dec : List Nat → Option (α × List Nat)}
    (h : ∀ a tail, dec (enc a ++ tail) = some (a, tail))
    (xs : List α) (tail : List Nat) :
    decListWith dec (encListWith enc xs ++ tail) = some (xs, tail) := by
  show decListWith dec (xs.length :: ((xs.map enc).flatten ++ tail)) = _
  simp [decListWith, decCount_enc h]

/-- Pairs round-trip. -/
theorem decPairWith_enc {α β : Type} {ea : α → List Nat}
    {da : List Nat → Option (α × List Nat)} {eb : β → List Nat}
    {db : List Nat → Option (β × List Nat)}
    (ha : ∀ a tail, da (ea a ++ tail) = some (a, tail))
    (hb : ∀ b tail, db (eb b ++ tail) = some (b, tail))
    (p : α × β) (tail : List Nat) :
    decPairWith da db (encPairWith ea eb p ++ tail) = some (p, tail) := by
  obtain ⟨a, b⟩ := p
  simp [encPairWith, decPairWith, List.append_assoc, ha, hb]

/-- Status codes round-trip. -/
theorem decStatusCode_enc (c : StatusCode) (tail : List Nat) :
    decStatusCode (encStatusCode c ++ tail) = some (c, tail) := by
  cases c <;> rfl

/-- Span kinds round-trip. -/
theorem decSpanKind_enc (k : SpanKind) (tail : List Nat) :
    decSpanKind (encSpanKind k ++ tail) = some (k, tail) := by
  cases k <;> rfl

/-- Trace states round-trip. -/
theorem decTraceState_enc (ts : TraceState) (tail : List Nat) :
    decTraceState (encTraceState ts ++ tail) = some (ts, tail) := by
  obtain ⟨entries⟩ := ts
  simp [encTraceState, decTraceState,
    decListWith_enc (decPairWith_enc decString_enc decString_enc)]

/-- Span contexts round-trip. -/
theorem decSpanContext_enc (c : SpanContext) (tail : List Nat) :
    decSpanContext (encSpanContext c ++ tail) = some (c, tail) := by
  obtain ⟨t, s, f, r, st⟩ := c
  simp [encSpanContext, decSpanContext, List.append_assoc, decNat_enc,
    decBool_enc, decTraceState_enc]

/-- Key/value attributes round-trip. -/
theorem decKeyValue_enc (kv : KeyValue) (tail : List Nat) :
    decKeyValue (encKeyValue kv ++ tail) = some (kv, tail) := by
  obtain ⟨k, v⟩ := kv
  simp [encKeyValue, decKeyValue, List.append_assoc, decString_enc]

/-- Events round-trip. -/
theorem decEvent_enc (e : Event) (tail : List Nat) :
    decEvent (encEvent e ++ tail) = some (e, tail) := by
  obtain ⟨n, t, a⟩ := e
  simp [encEvent, decEvent, List.append_assoc, decString_enc, decNat_enc,
    decListWith_enc decKeyValue_enc]

/-- Links round-trip. -/
theorem decLink_enc (lk : Link) (tail : List Nat) :
    decLink (encLink lk ++ tail) = some (lk, tail) := by
  obtain ⟨c, a⟩ := lk
  simp [encLink, decLink, List.append_assoc, decSpanContext_enc,
    decListWith_enc decKeyValue_enc]

/-- Bounded attribute stores round-trip. -/
theorem decEvictedHashMap_enc (m : EvictedHashMap) (tail : List Nat) :
    decEvictedHashMap (encEvictedHashMap m ++ tail) = some (m, tail) := by
  obtain ⟨c, es⟩ := m
  simp [encEvictedHashMap, decEvictedHashMap, List.append_assoc, decNat_enc,
    decListWith_enc decKeyValue_enc]

/-- Bounded queues round-trip. -/
theorem decEvictedQueue_enc {α : Type} {enc : α → List Nat}
    {dec : List Nat → Option (α × List Nat)}
    (h : ∀ a tail, dec (enc a ++ tail) = some (a, tail))
    (q : EvictedQueue α) (tail : List Nat) :
    decEvictedQueue dec (encEvictedQueue enc q ++ tail) = some (q, tail) := by
  obtain ⟨c, es⟩ := q
  simp [encEvictedQueue, decEvictedQueue, List.append_assoc, decNat_enc,
    decListWith_enc h]

/-- Resource descriptors round-trip. -/
theorem decResource_enc (r : Resource) (tail : List Nat) :
    decResource (encResource r ++ tail) = some (r, tail) := by
  obtain ⟨a⟩ := r
  simp [encResource, decResource, decListWith_enc decKeyValue_enc]

/-- Snapshots round-trip up to the skipped instrumentation field. -/
theorem decSpanData_enc (sd : SpanData) (tail : List Nat) :
    decSpanData (serializeSpanData sd ++ tail) =
      some ({ sd with instrumentation_lib := InstrumentationLibrary.default },
        tail) := by
  obtain ⟨c, pid, k, nm, st, en, at_, ev, lk, sc, sm, rs, il⟩ := sd
  simp only [serializeSpanData, List.append_assoc, decSpanData,
    decSpanContext_enc, Option.some_bind, decNat_enc, decSpanKind_enc,
    decString_enc, decEvictedHashMap_enc, decEvictedQueue_enc decEvent_enc,
    decEvictedQueue_enc decLink_enc, decStatusCode_enc, decResource_enc]
  rfl

/-- C9: serializing a snapshot and deserializing the result reproduces a
value equal to the original in every field except `instrumentation_lib`,
which is excluded from the encoded form (it does not influence the bytes)
and comes back as its default. -/
theorem serialization_roundtrip (sd : SpanData) :
    deserializeSpanData (serializeSpanData sd) =
      some { sd with instrumentation_lib := InstrumentationLibrary.default } ∧
    ∀ lib, serializeSpanData { sd with instrumentation_lib := lib } =
      serializeSpanData sd := by
  constructor
  · have h := decSpanData_enc sd []
    rw [List.append_nil] at h
    simp [deserializeSpanData, h]
  · intro lib
    rfl

end OTel
